import Mathlib

/-!
Verification development for `digital_economy_app.py`, a dashboard over a CSV
of corporate digital-transformation index scores.  The data-preparation and
query layer (loader, market aggregator, company resolver, metrics calculator)
is embedded shallowly: pandas DataFrames become `List Record`, numeric CSV
fields become rationals, and the `main` pipeline of the script becomes the
pure function `mainView`.  Fallible steps return `Option`.
-/

namespace DigitalEconomy

/-- One cleaned row of the dataset.  Field names translate the CSV columns:
`ticker` = 股票代码 (kept as an opaque string, `dtype=str` in the source),
`name` = 企业名称, `year` = 年份 (after numeric coercion and `astype(int)`),
`index` = 数字化转型指数(0-100分), `totalFreq` = 总词频数, and the five
technology-category keyword frequencies. Floating-point columns are modelled
as rationals. -/
structure Record where
  ticker : String
  name : String
  year : Int
  index : ℚ
  totalFreq : ℚ
  aiFreq : ℚ := 0
  bigdataFreq : ℚ := 0
  cloudFreq : ℚ := 0
  blockchainFreq : ℚ := 0
  digitalFreq : ℚ := 0
deriving DecidableEq, Repr

/-- A raw CSV row as it stands right after `pd.read_csv` plus
`pd.to_numeric(df['年份'], errors='coerce')`: the year column holds either a
parsed numeric value or `none` (pandas `NaN`) when the year field failed to
parse.  All other columns are as in `Record`. -/
structure RawRow where
  ticker : String
  name : String
  yearNum : Option ℚ
  index : ℚ
  totalFreq : ℚ
  aiFreq : ℚ := 0
  bigdataFreq : ℚ := 0
  cloudFreq : ℚ := 0
  blockchainFreq : ℚ := 0
  digitalFreq : ℚ := 0
deriving DecidableEq, Repr

/-- Truncation of a rational toward zero, the semantics of a numpy
float-to-int cast (`astype(int)`) and of Python `int()` on a float. -/
def truncQ (q : ℚ) : Int := q.num.tdiv q.den

/-- Conversion of a raw row whose year parsed to the numeric value `y` into a
cleaned record (`df['年份'].astype(int)` truncates the float year). -/
def convRow (r : RawRow) (y : ℚ) : Record :=
  { ticker := r.ticker, name := r.name, year := truncQ y, index := r.index,
    totalFreq := r.totalFreq, aiFreq := r.aiFreq, bigdataFreq := r.bigdataFreq,
    cloudFreq := r.cloudFreq, blockchainFreq := r.blockchainFreq,
    digitalFreq := r.digitalFreq }

/-- The loader's cleaning steps (`digital_economy_app.py` lines 83-85):
coerce the year column to numeric, drop rows whose year is `NaN`
(`dropna(subset=['年份'])`), cast the remaining years to `int`. -/
def cleanRows (rows : List RawRow) : List Record :=
  rows.filterMap fun r => r.yearNum.map (convRow r)

/-- One row of the `market_avg` frame: 年份, 市场平均指数, 市场平均词频. -/
structure MarketAvg where
  year : Int
  avgIndex : ℚ
  avgFreq : ℚ
deriving DecidableEq, Repr

/-- The distinct years of the dataset in ascending order: the group keys
produced by `df.groupby('年份')` (pandas sorts group keys). -/
def yearsOf (df : List Record) : List Int :=
  List.insertionSort (· ≤ ·) (df.map (·.year)).dedup

/-- The market aggregator (`digital_economy_app.py` lines 88-92):
`df.groupby('年份')[['数字化转型指数(0-100分)', '总词频数']].mean()` —
for each year, the arithmetic mean of the index and of the total keyword
frequency over the rows of that year. -/
def market_avg (df : List Record) : List MarketAvg :=
  (yearsOf df).map fun y =>
    let g := df.filter fun r => r.year == y
    { year := y,
      avgIndex := (g.map (·.index)).sum / (g.length : ℚ),
      avgFreq := (g.map (·.totalFreq)).sum / (g.length : ℚ) }

/-- `pat` matches at the head of `l` (character-wise). -/
def listLead : List Char → List Char → Bool
  | [], _ => true
  | _ :: _, [] => false
  | a :: as, b :: bs => a == b && listLead as bs

/-- `pat` occurs contiguously somewhere in `l`. -/
def listOccurs (pat : List Char) : List Char → Bool
  | [] => pat.isEmpty
  | b :: bs => listLead pat (b :: bs) || listOccurs pat bs

/-- Substring containment, the semantics of
`df['企业名称'].str.contains(query, na=False)` in the source.  (pandas
`str.contains` defaults to regex matching; for queries without regex
metacharacters — the intended company-name fragments — this coincides with
literal substring containment, which is what we embed.) -/
def strContains (hay q : String) : Bool := listOccurs q.data hay.data

/-- The two search modes offered by the sidebar radio button:
企业名称 (by company name) and 股票代码 (by ticker). -/
inductive SearchMode
  | byName
  | byTicker
deriving DecidableEq, Repr

/-- The company resolver (`digital_economy_app.py` lines 143-148).
By ticker: exact equality on 股票代码.  By name: exact equality on 企业名称
first; only when that yields an empty frame, the fuzzy fallback
`str.contains` is used. -/
def resolve_matches (df : List Record) (mode : SearchMode) (q : String) : List Record :=
  match mode with
  | SearchMode.byTicker => df.filter fun r => r.ticker == q
  | SearchMode.byName =>
    let exact := df.filter fun r => r.name == q
    if exact.isEmpty then df.filter fun r => strContains r.name q else exact

/-- Total order on records by year, used to model `sort_values('年份')`. -/
def yearLE (a b : Record) : Prop := a.year ≤ b.year

instance : DecidableRel yearLE := fun a b => inferInstanceAs (Decidable (a.year ≤ b.year))

instance : IsTotal Record yearLE := ⟨fun a b => le_total a.year b.year⟩

instance : IsTrans Record yearLE := ⟨fun _ _ _ h1 h2 => le_trans h1 h2⟩

/-- The full series of the chosen company (`digital_economy_app.py` lines
152-153): all rows of the *full* dataframe with the chosen ticker, sorted by
year ascending (`df[df['股票代码'] == first_code].sort_values('年份')`). -/
def company_series (df : List Record) (first_code : String) : List Record :=
  List.insertionSort yearLE (df.filter fun r => r.ticker == first_code)

/-- The year-range filter (`digital_economy_app.py` lines 156-157): both
bounds inclusive. -/
def filterYears (s : List Record) (lo hi : Int) : List Record :=
  s.filter fun r => decide (lo ≤ r.year) && decide (r.year ≤ hi)

/-- `prev_rec` (`digital_economy_app.py` line 174):
`filtered_company.iloc[-2] if len(filtered_company) > 1 else None`. -/
def prev_rec_of (filtered : List Record) : Option Record :=
  if filtered.length > 1 then filtered.dropLast.getLast? else none

/-- Round-half-to-even on rationals, the semantics of Python `round` at
integer resolution. -/
def roundHalfEven (q : ℚ) : Int :=
  let n := Rat.floor q
  let f := q - (n : ℚ)
  if f < 1 / 2 then n
  else if 1 / 2 < f then n + 1
  else if n % 2 = 0 then n else n + 1

/-- Python `round(x, 2)`: round half-to-even at two decimal places. -/
def pyRound2 (q : ℚ) : ℚ := (roundHalfEven (q * 100) : ℚ) / 100

/-- `idx_delta` (`digital_economy_app.py` line 175):
`round(latest_idx - prev_rec[...], 2) if prev_rec is not None else 0`. -/
def idx_delta_of (filtered : List Record) (latest : Record) : ℚ :=
  match prev_rec_of filtered with
  | some p => pyRound2 (latest.index - p.index)
  | none => 0

/-- pandas `Series.rank(ascending=False, method='min')` evaluated at value
`v` of the series `values`: one plus the number of entries strictly greater
than `v`. -/
def rankMin (values : List ℚ) (v : ℚ) : Nat :=
  1 + (values.filter fun w => decide (v < w)).length

/-- The bundle of scalar metrics `main` derives for the resolved company
(lines 163-181 of the source): last row's company name, chosen ticker,
latest index and year of the filtered series, year-over-year delta, market
rank (`none` models the `"N/A"` fallback when the rank lookup is empty), and
the size of the latest year's market. -/
structure Metrics where
  company_name : String
  stock_code : String
  latest_idx : ℚ
  latest_yr : Int
  idx_delta : ℚ
  my_rank : Option Nat
  total_comps : Nat
deriving DecidableEq, Repr

/-- Outcome of one run of the `main` pipeline for a given query and year
range: no query entered, no company matched, the year filter emptied the
series, or a metrics bundle for the resolved company. -/
inductive ViewResult
  | noQuery
  | noMatch
  | emptyFiltered
  | ok (m : Metrics)
deriving DecidableEq, Repr

/-- The data path of `main` (`digital_economy_app.py` lines 140-188) as a
pure function of the dataset, search mode, query and year-range slider.
Mirrors the source: empty query short-circuits (`if query:`); the first
matching row's ticker is chosen (`matches['股票代码'].iloc[0]`); the full
series for that ticker is year-sorted and range-filtered; the metrics are
derived from the filtered series and the full dataframe. -/
def mainView (df : List Record) (mode : SearchMode) (query : String) (lo hi : Int) :
    ViewResult :=
  if query = "" then ViewResult.noQuery
  else
    match (resolve_matches df mode query).head? with
    | none => ViewResult.noMatch
    | some m0 =>
      let target := company_series df m0.ticker
      let filtered := filterYears target lo hi
      match filtered.getLast? with
      | none => ViewResult.emptyFiltered
      | some latest =>
        let cm := df.filter fun r => r.year == latest.year
        { company_name := latest.name
          stock_code := m0.ticker
          latest_idx := latest.index
          latest_yr := latest.year
          idx_delta := idx_delta_of filtered latest
          my_rank := ((cm.filter fun r => r.ticker == m0.ticker).head?).map fun r0 =>
            rankMin (cm.map (·.index)) r0.index
          total_comps := cm.length : Metrics }
        |> ViewResult.ok

/-- `int(my_rank)` on the 市场排名 card (`digital_economy_app.py` line 188);
`none` models the `TypeError` crash that `int("N/A")` would raise. -/
def rankCard (m : Metrics) : Option Int := m.my_rank.map fun r : Nat => (r : Int)

/-- `int(my_rank/total_comps*100)` on the `Top N%` caption
(`digital_economy_app.py` line 188); `none` models the crash on `"N/A"`. -/
def rankPercent (m : Metrics) : Option Int :=
  m.my_rank.map fun r : Nat => truncQ ((r : ℚ) / (m.total_comps : ℚ) * 100)

/-- The state of the input CSV as the loader can encounter it: the file is
absent, present but unreadable/unparseable (the `except` path), or parseable
into raw rows. -/
inductive FileState
  | missing
  | corrupt
  | good (rows : List RawRow)
deriving DecidableEq, Repr

/-- `load_data` (`digital_economy_app.py` lines 73-97) as a function of the
file state.  A missing file returns `(None, None)` (here `none`); a parse
failure is caught and — after an `st.error` side effect showing the cause —
also returns `(None, None)`; a parseable file yields the cleaned dataframe
and the market averages. -/
def load_data : FileState → Option (List Record × List MarketAvg)
  | FileState.missing => none
  | FileState.corrupt => none
  | FileState.good rows => some (cleanRows rows, market_avg (cleanRows rows))

/-- The caller's failure handling (`digital_economy_app.py` lines 105-107):
whenever `df is None`, `main` renders 无法找到数据文件 and stops; otherwise no
load-failure guidance is shown. -/
def mainGuidance : Option (List Record × List MarketAvg) → Option String
  | none => some "无法找到数据文件"
  | some _ => none

/-- The `@st.cache_data` memoization around `load_data`: the function takes
no arguments, so the cache is a single slot holding the return value of the
first call.  On a hit the cached value is returned without consulting the
file system; on a miss the loader runs and its result — successful or not —
is stored. -/
def load_data_cached (cache : Option (Option (List Record × List MarketAvg)))
    (fs : FileState) :
    Option (List Record × List MarketAvg) × Option (Option (List Record × List MarketAvg)) :=
  match cache with
  | some r => (r, some r)
  | none => (load_data fs, some (load_data fs))

/-- Descending order on rationals, used to state the minimum-rank property
via sorted position. -/
def qGE (a b : ℚ) : Prop := b ≤ a

instance : DecidableRel qGE := fun a b => inferInstanceAs (Decidable (b ≤ a))

instance : IsTotal ℚ qGE := ⟨fun a b => le_total b a⟩

instance : IsTrans ℚ qGE := ⟨fun _ _ _ h1 h2 => le_trans h2 h1⟩

/-- Index of the first occurrence of `v` in a list (length of the list if
absent). -/
def firstPos (v : ℚ) : List ℚ → Nat
  | [] => 0
  | a :: t => if a = v then 0 else firstPos v t + 1

/-- The specification's notion of market rank, following its words: sort the
index values descending and take the (1-based) position of the company's
value, so equal values share the same, best, position — minimum rank on
ties. -/
def specMinRank (values : List ℚ) (v : ℚ) : Nat :=
  firstPos v (List.insertionSort qGE values) + 1

/-! ### Concrete data used by witnesses and counterexamples -/

/-- 90-scoring company A of the rank example. -/
def rRankA : Record := { ticker := "A", name := "NA", year := 2020, index := 90, totalFreq := 5 }

/-- 90-scoring company B of the rank example. -/
def rRankB : Record := { ticker := "B", name := "NB", year := 2020, index := 90, totalFreq := 6 }

/-- 80-scoring company C of the rank example. -/
def rRankC : Record := { ticker := "C", name := "NC", year := 2020, index := 80, totalFreq := 7 }

/-- Dataset realizing the spec's tie example: index values 90, 90, 80 in one
year. -/
def dfRank : List Record := [rRankA, rRankB, rRankC]

/-- Metrics `mainView` produces on `dfRank` for the query `C`. -/
def mRank80 : Metrics :=
  { company_name := "NC", stock_code := "C", latest_idx := 80, latest_yr := 2020,
    idx_delta := 0, my_rank := some 3, total_comps := 3 }

/-- A row whose name `AB` is matched exactly by the query `AB`. -/
def rNameAB : Record := { ticker := "X1", name := "AB", year := 2020, index := 10, totalFreq := 1 }

/-- A row whose name `ABC` contains the query `AB` only as a substring. -/
def rNameABC : Record := { ticker := "X2", name := "ABC", year := 2020, index := 20, totalFreq := 2 }

/-- Dataset on which both an exact and a substring name match exist. -/
def dfName : List Record := [rNameAB, rNameABC]

/-- Year-2020 row of the delta counterexample company. -/
def rDelta0 : Record := { ticker := "T1", name := "N1", year := 2020, index := 80, totalFreq := 1 }

/-- Year-2021 row of the delta counterexample company: index 80.001, so the
true year-over-year difference is 0.001. -/
def rDelta1 : Record :=
  { ticker := "T1", name := "N1", year := 2021, index := 80001 / 1000, totalFreq := 1 }

/-- Dataset of the delta counterexample. -/
def dfDelta : List Record := [rDelta0, rDelta1]

/-- Metrics `mainView` produces on `dfDelta` for the query `T1`: the
displayed delta is `round(0.001, 2) = 0`. -/
def mDelta : Metrics :=
  { company_name := "N1", stock_code := "T1", latest_idx := 80001 / 1000, latest_yr := 2021,
    idx_delta := 0, my_rank := some 1, total_comps := 1 }

/-- Year-2020 row of the delta witness company. -/
def rDeltaW0 : Record := { ticker := "T2", name := "N2", year := 2020, index := 10, totalFreq := 1 }

/-- Year-2021 row of the delta witness company. -/
def rDeltaW1 : Record := { ticker := "T2", name := "N2", year := 2021, index := 13, totalFreq := 1 }

/-- Dataset of the delta witness. -/
def dfDeltaW : List Record := [rDeltaW0, rDeltaW1]

/-- Metrics `mainView` produces on `dfDeltaW` for the query `T2` over the
year range 2021-2030: the range keeps only the 2021 record, so the delta is
0 even though the company's full history has two records. -/
def mDeltaW : Metrics :=
  { company_name := "N2", stock_code := "T2", latest_idx := 13, latest_yr := 2021,
    idx_delta := 0, my_rank := some 1, total_comps := 1 }

/-- A raw row that parses cleanly (year 2020). -/
def rawOk : RawRow := { ticker := "A", name := "N", yearNum := some 2020, index := 1, totalFreq := 2 }

/-- A raw row whose year field parsed to the negative number `-5`. -/
def rawNeg : RawRow :=
  { ticker := "B", name := "M", yearNum := some (-5), index := 3, totalFreq := 4 }

/-- A raw row whose year field failed to parse (`NaN` after coercion). -/
def rawBad : RawRow := { ticker := "C", name := "K", yearNum := none, index := 5, totalFreq := 6 }

/-- The 2019 row of the series-resolution witness company (older name). -/
def rSer2019 : Record :=
  { ticker := "S1", name := "GammaOld", year := 2019, index := 30, totalFreq := 3 }

/-- The 2021 row of the series-resolution witness company (current name). -/
def rSer2021 : Record :=
  { ticker := "S1", name := "Gamma", year := 2021, index := 40, totalFreq := 4 }

/-- Dataset where a name query matches only one year of a two-year
history. -/
def dfSeries : List Record := [rSer2019, rSer2021]

/-- Single-record dataset of the market-average witness. -/
def rAvg : Record := { ticker := "V", name := "NV", year := 2022, index := 55, totalFreq := 9 }

/-- Dataset for the single-company market-average witness. -/
def dfAvg : List Record := [rAvg]

/-- Top-ranked company of the percentile witness. -/
def rPctHi : Record := { ticker := "T9", name := "PA", year := 2021, index := 90, totalFreq := 1 }

/-- Bottom-ranked company of the percentile witness (rank 2 of 2). -/
def rPctLo : Record := { ticker := "T8", name := "PB", year := 2021, index := 85, totalFreq := 1 }

/-- Dataset of the percentile witness. -/
def dfPct : List Record := [rPctHi, rPctLo]

/-- Metrics `mainView` produces on `dfPct` for the query `T8`. -/
def mPct : Metrics :=
  { company_name := "PB", stock_code := "T8", latest_idx := 85, latest_yr := 2021,
    idx_delta := 0, my_rank := some 2, total_comps := 2 }

/-- Single record of the rank-safety witness. -/
def rSafe : Record := { ticker := "T5", name := "NS", year := 2020, index := 50, totalFreq := 2 }

/-- Dataset of the rank-safety witness. -/
def dfSafe : List Record := [rSafe]

/-- Metrics `mainView` produces on `dfSafe` for the query `T5`. -/
def mSafe : Metrics :=
  { company_name := "NS", stock_code := "T5", latest_idx := 50, latest_yr := 2020,
    idx_delta := 0, my_rank := some 1, total_comps := 1 }

/-! ### Helper lemmas -/

/-- Membership in the resolved company series is membership in the full
dataset with the chosen ticker. -/
theorem mem_company_series {df : List Record} {t : String} {r : Record} :
    r ∈ company_series df t ↔ r ∈ df ∧ r.ticker = t := by
  unfold company_series
  rw [(List.perm_insertionSort yearLE _).mem_iff, List.mem_filter]
  simp

/-- Membership in the year-filtered series. -/
theorem mem_filterYears {s : List Record} {lo hi : Int} {r : Record} :
    r ∈ filterYears s lo hi ↔ r ∈ s ∧ lo ≤ r.year ∧ r.year ≤ hi := by
  unfold filterYears
  rw [List.mem_filter]
  simp

/-- Elimination form of `mainView`: a successful view determines the first
matching row, the latest filtered record, and every metrics field. -/
theorem mainView_ok_elim {df : List Record} {mode : SearchMode} {q : String}
    {lo hi : Int} {m : Metrics} (h : mainView df mode q lo hi = ViewResult.ok m) :
    ∃ m0 latest,
      (resolve_matches df mode q).head? = some m0 ∧
      (filterYears (company_series df m0.ticker) lo hi).getLast? = some latest ∧
      m = { company_name := latest.name
            stock_code := m0.ticker
            latest_idx := latest.index
            latest_yr := latest.year
            idx_delta := idx_delta_of (filterYears (company_series df m0.ticker) lo hi) latest
            my_rank := (((df.filter fun r => r.year == latest.year).filter
                fun r => r.ticker == m0.ticker).head?).map fun r0 =>
              rankMin ((df.filter fun r => r.year == latest.year).map (·.index)) r0.index
            total_comps := (df.filter fun r => r.year == latest.year).length } := by
  unfold mainView at h
  split at h
  · exact absurd h (by simp)
  · split at h
    · exact absurd h (by simp)
    · next m0 hm0 =>
      dsimp only at h
      split at h
      · exact absurd h (by simp)
      · next latest hlatest =>
        refine ⟨m0, latest, hm0, hlatest, ?_⟩
        cases h
        rfl

/-- In a descending-sorted list, the position of the first occurrence of a
member equals the number of entries strictly greater than it. -/
theorem firstPos_sorted (v : ℚ) (L : List ℚ) (hs : List.Sorted qGE L) (hv : v ∈ L) :
    firstPos v L = (L.filter fun w => decide (v < w)).length := by
  induction L with
  | nil => cases hv
  | cons a t ih =>
    rcases List.sorted_cons.mp hs with ⟨ha, hts⟩
    by_cases hav : a = v
    · subst hav
      have h2 : t.filter (fun w => decide (a < w)) = [] := by
        rw [List.filter_eq_nil_iff]
        intro w hw
        simpa using not_lt.mpr (ha w hw)
      simp [firstPos, List.filter_cons, h2]
    · have hvt : v ∈ t := by
        cases List.mem_cons.mp hv with
        | inl h => exact absurd h.symm hav
        | inr h => exact h
      have hva : v < a := lt_of_le_of_ne (ha v hvt) fun h => hav h.symm
      simp [firstPos, hav, List.filter_cons, hva, ih hts hvt]

/-- pandas min-rank (one plus the count of strictly greater values) agrees
with the specification's formulation as the first position in the
descending-sorted value list. -/
theorem rankMin_eq_specMinRank (values : List ℚ) (v : ℚ) (hv : v ∈ values) :
    rankMin values v = specMinRank values v := by
  have hperm : List.Perm (List.insertionSort qGE values) values :=
    List.perm_insertionSort qGE values
  have hsort : List.Sorted qGE (List.insertionSort qGE values) :=
    List.sorted_insertionSort qGE values
  have hv' : v ∈ List.insertionSort qGE values := hperm.mem_iff.mpr hv
  have h1 := firstPos_sorted v _ hsort hv'
  have h2 : ((List.insertionSort qGE values).filter fun w => decide (v < w)).length
      = (values.filter fun w => decide (v < w)).length :=
    (hperm.filter _).length_eq
  unfold rankMin specMinRank
  rw [h1, h2]
  omega

/-- On nonnegative rationals, truncation toward zero (Python `int`) agrees
with the floor. -/
theorem truncQ_eq_floor_of_nonneg (x : ℚ) (hx : 0 ≤ x) : truncQ x = Int.floor x := by
  unfold truncQ
  rw [Rat.floor_def]
  exact Int.tdiv_eq_ediv (Rat.num_nonneg.mpr hx) (Int.natCast_nonneg _)

/-- `find?` on a mapped list of year-keyed entries returns the entry of the
first matching year. -/
theorem find?_year_map (ys : List Int) (y : Int) (hy : y ∈ ys) (f : Int → MarketAvg)
    (hf : ∀ y', (f y').year = y') :
    (ys.map f).find? (fun e => e.year == y) = some (f y) := by
  induction ys with
  | nil => cases hy
  | cons a t ih =>
    by_cases hay : a = y
    · subst hay
      simp [List.find?_cons, hf]
    · have hyt : y ∈ t := by
        cases List.mem_cons.mp hy with
        | inl h => exact absurd h.symm hay
        | inr h => exact h
      have hfa : ((f a).year == y) = false := by simp [hf, hay]
      simp only [List.map_cons, List.find?_cons, hfa]
      exact ih hyt

/-- The years listed by the aggregator are exactly the years occurring in
the dataset. -/
theorem mem_yearsOf {df : List Record} {y : Int} :
    y ∈ yearsOf df ↔ y ∈ df.map (·.year) := by
  unfold yearsOf
  rw [(List.perm_insertionSort _ _).mem_iff, List.mem_dedup]

/-! ### C1 — market rank: descending, minimum on ties, over the full
dataset at the latest filtered year -/

/-- C1: for every resolved company with a non-empty year-filtered series
(and a dataset keyed by ticker and year, as in the source data), the market
rank in the metrics equals the rank of the company's latest index among the
index values of all records of the full, unfiltered dataset in the latest
year of the filtered series, ranked descending with minimum rank on ties
(stated via the first position in the descending-sorted value list). -/
theorem market_rank_min_ties (df : List Record) (mode : SearchMode) (q : String)
    (lo hi : Int) (m : Metrics)
    (huniq : ∀ r1 ∈ df, ∀ r2 ∈ df, r1.ticker = r2.ticker → r1.year = r2.year → r1 = r2)
    (h : mainView df mode q lo hi = ViewResult.ok m) :
    m.my_rank =
      some (specMinRank ((df.filter fun r => r.year == m.latest_yr).map (·.index))
        m.latest_idx) := by
  obtain ⟨m0, latest, hm0, hlast, hm⟩ := mainView_ok_elim h
  subst hm
  have hlmem : latest ∈ filterYears (company_series df m0.ticker) lo hi :=
    List.mem_of_getLast?_eq_some hlast
  obtain ⟨hldf, hlticker⟩ : latest ∈ df ∧ latest.ticker = m0.ticker :=
    mem_company_series.mp (mem_filterYears.mp hlmem).1
  have hlcm : latest ∈ df.filter fun r => r.year == latest.year :=
    List.mem_filter.mpr ⟨hldf, by simp⟩
  have hmine : latest ∈ (df.filter fun r => r.year == latest.year).filter
      fun r => r.ticker == m0.ticker :=
    List.mem_filter.mpr ⟨hlcm, by simp [hlticker]⟩
  obtain ⟨r0, hr0⟩ : ∃ r0, ((df.filter fun r => r.year == latest.year).filter
      fun r => r.ticker == m0.ticker).head? = some r0 := by
    have hne := List.ne_nil_of_mem hmine
    exact Option.isSome_iff_exists.mp (List.head?_isSome.mpr hne)
  have hr0mem := List.mem_of_mem_head? hr0
  obtain ⟨hr0cm, hr0t⟩ := List.mem_filter.mp hr0mem
  obtain ⟨hr0df, hr0y⟩ := List.mem_filter.mp hr0cm
  have hr0eq : r0 = latest := by
    apply huniq r0 hr0df latest hldf
    · rw [hlticker]
      exact beq_iff_eq.mp hr0t
    · exact beq_iff_eq.mp hr0y
  simp only [hr0, Option.map_some', hr0eq]
  congr 1
  exact rankMin_eq_specMinRank _ _ (List.mem_map.mpr ⟨latest, hlcm, rfl⟩)

/-- C1 witness: three companies in 2020 with index values 90, 90, 80; the
80-scorer is resolved and its reported rank matches the specification rank
(both are 3). -/
theorem market_rank_min_ties_witness :
    mRank80.my_rank =
      some (specMinRank ((dfRank.filter fun r => r.year == mRank80.latest_yr).map (·.index))
        mRank80.latest_idx) :=
  market_rank_min_ties dfRank SearchMode.byTicker "C" 2000 2030 mRank80
    (by decide) (by decide)

/-! ### C2 — by-name resolution: exact equality first, substring fallback
only on zero exact matches -/

/-- C2: for every dataset and non-empty by-name query, when some row's name
equals the query exactly, the resolver returns precisely the exact-equality
matches (every returned row's name equals the query, so the substring
fallback is never consulted); only when no exact match exists does it return
the substring-containment matches. -/
theorem byname_exact_first (df : List Record) (q : String) (_hq : q ≠ "") :
    ((∃ r ∈ df, r.name = q) →
      resolve_matches df SearchMode.byName q = df.filter (fun r => r.name == q) ∧
      ∀ r ∈ resolve_matches df SearchMode.byName q, r.name = q) ∧
    ((∀ r ∈ df, r.name ≠ q) →
      resolve_matches df SearchMode.byName q = df.filter fun r => strContains r.name q) := by
  constructor
  · rintro ⟨r0, hr0, hname⟩
    have hmem : r0 ∈ df.filter fun r => r.name == q :=
      List.mem_filter.mpr ⟨hr0, by simp [hname]⟩
    have hne : ¬(df.filter fun r => r.name == q).isEmpty := by
      rw [List.isEmpty_iff]
      exact List.ne_nil_of_mem hmem
    have heq : resolve_matches df SearchMode.byName q = df.filter fun r => r.name == q := by
      simp [resolve_matches, hne]
    refine ⟨heq, ?_⟩
    intro r hr
    rw [heq] at hr
    simpa using (List.mem_filter.mp hr).2
  · intro hall
    have hempty : (df.filter fun r => r.name == q).isEmpty = true := by
      rw [List.isEmpty_iff, List.filter_eq_nil_iff]
      intro r hr
      simpa using hall r hr
    simp [resolve_matches, hempty]

/-- C2 witness: on a dataset holding names `AB` and `ABC`, the query `AB`
has both an exact match and a substring match; the resolver returns the
exact matches only. -/
theorem byname_exact_first_witness :
    resolve_matches dfName SearchMode.byName "AB" = dfName.filter (fun r => r.name == "AB") ∧
    ∀ r ∈ resolve_matches dfName SearchMode.byName "AB", r.name = "AB" :=
  (byname_exact_first dfName "AB" (by decide)).1 ⟨rNameAB, by decide, rfl⟩

/-! ### C3 — year-over-year delta (corrected: the code rounds the
difference to two decimal places) -/

/-- C3 counterexample: on `dfDelta` (indexes 80 then 80.001) the reported
delta is `round(0.001, 2) = 0`, while the claimed value — the latest index
minus the second-to-last index — is `0.001 ≠ 0`. -/
theorem yoy_delta_cex :
    mainView dfDelta SearchMode.byTicker "T1" 2000 2030 = ViewResult.ok mDelta ∧
    mDelta.idx_delta = 0 ∧ rDelta1.index - rDelta0.index ≠ 0 := by
  refine ⟨?_, rfl, by with_unfolding_all decide⟩
  simp only [mainView, resolve_matches, dfDelta, rDelta0, rDelta1, company_series, filterYears,
    yearLE, List.insertionSort, List.orderedInsert, idx_delta_of, prev_rec_of, pyRound2,
    roundHalfEven, rankMin, mDelta]
  norm_num [List.filter, List.dropLast, Rat.floor]
  rw [if_neg (by decide : ¬("T1" = ""))]
  norm_num
  decide

/-- C3 amended: for every successful view, the reported delta is the
half-even rounding to two decimal places of (last index − second-to-last
index) of the year-sorted filtered series, and it is exactly 0 when the
filtered series has exactly one record, regardless of the company's
unfiltered history. -/
theorem yoy_delta_rounded (df : List Record) (mode : SearchMode) (q : String)
    (lo hi : Int) (m : Metrics) (h : mainView df mode q lo hi = ViewResult.ok m) :
    ∃ m0, (resolve_matches df mode q).head? = some m0 ∧
      ((filterYears (company_series df m0.ticker) lo hi).length = 1 → m.idx_delta = 0) ∧
      (∀ l p, (filterYears (company_series df m0.ticker) lo hi).getLast? = some l →
        (filterYears (company_series df m0.ticker) lo hi).dropLast.getLast? = some p →
        m.idx_delta = pyRound2 (l.index - p.index)) := by
  obtain ⟨m0, latest, hm0, hlast, hm⟩ := mainView_ok_elim h
  subst hm
  refine ⟨m0, hm0, ?_, ?_⟩
  · intro h1
    simp [idx_delta_of, prev_rec_of, h1]
  · intro l p hl hp
    rw [hlast] at hl
    injection hl with hl
    subst hl
    have hpmem := List.mem_of_getLast?_eq_some hp
    have hlen : 1 < (filterYears (company_series df m0.ticker) lo hi).length := by
      have h1 := List.ne_nil_of_mem hpmem
      have h2 := List.length_dropLast (filterYears (company_series df m0.ticker) lo hi)
      have h3 : (filterYears (company_series df m0.ticker) lo hi).dropLast.length ≠ 0 :=
        fun hz => h1 (List.length_eq_zero.mp hz)
      omega
    simp [idx_delta_of, prev_rec_of, hlen, hp]

/-- C3 amended witness: a company with history 2020 and 2021, filtered to
the range 2021-2030, has a one-record filtered series and reports delta 0
regardless of its earlier history. -/
theorem yoy_delta_rounded_witness :
    ∃ m0, (resolve_matches dfDeltaW SearchMode.byTicker "T2").head? = some m0 ∧
      ((filterYears (company_series dfDeltaW m0.ticker) 2021 2030).length = 1 →
        mDeltaW.idx_delta = 0) ∧
      (∀ l p,
        (filterYears (company_series dfDeltaW m0.ticker) 2021 2030).getLast? = some l →
        (filterYears (company_series dfDeltaW m0.ticker) 2021 2030).dropLast.getLast? = some p →
        mDeltaW.idx_delta = pyRound2 (l.index - p.index)) :=
  yoy_delta_rounded dfDeltaW SearchMode.byTicker "T2" 2021 2030 mDeltaW (by decide)

/-! ### C6 — first matching row wins; the series is the ticker's full
history, year-ascending -/

/-- C6: whenever a query matches at least one row, the resolver's effective
criterion is a single row predicate, the chosen row is the first matching
row of the dataset in natural order, and the resulting company series is
sorted by year ascending and contains exactly the full dataset's records
for the chosen row's ticker. -/
theorem resolver_first_match_full_series (df : List Record) (mode : SearchMode)
    (q : String) (m0 : Record) (h : (resolve_matches df mode q).head? = some m0) :
    (∃ p : Record → Bool, resolve_matches df mode q = df.filter p ∧ df.find? p = some m0) ∧
    List.Sorted yearLE (company_series df m0.ticker) ∧
    (∀ r : Record, r ∈ company_series df m0.ticker ↔ r ∈ df ∧ r.ticker = m0.ticker) := by
  refine ⟨?_, List.sorted_insertionSort yearLE _, fun r => mem_company_series⟩
  cases mode with
  | byTicker =>
    refine ⟨fun r => r.ticker == q, rfl, ?_⟩
    rw [← List.filter_head?]
    exact h
  | byName =>
    by_cases hempty : (df.filter fun r => r.name == q).isEmpty
    · refine ⟨fun r => strContains r.name q, ?_, ?_⟩
      · simp [resolve_matches, hempty]
      · rw [← List.filter_head?, ← show resolve_matches df SearchMode.byName q =
          df.filter fun r => strContains r.name q by simp [resolve_matches, hempty]]
        exact h
    · refine ⟨fun r => r.name == q, ?_, ?_⟩
      · simp [resolve_matches, hempty]
      · rw [← List.filter_head?, ← show resolve_matches df SearchMode.byName q =
          df.filter fun r => r.name == q by simp [resolve_matches, hempty]]
        exact h

/-- C6 witness: the query `Gamma` matches only the 2021 row of ticker `S1`,
yet the resolved series contains both the 2019 and the 2021 records of
`S1`, year-ascending. -/
theorem resolver_first_match_full_series_witness :
    (∃ p : Record → Bool, resolve_matches dfSeries SearchMode.byName "Gamma" =
        dfSeries.filter p ∧ dfSeries.find? p = some rSer2021) ∧
    List.Sorted yearLE (company_series dfSeries rSer2021.ticker) ∧
    (∀ r : Record, r ∈ company_series dfSeries rSer2021.ticker ↔
      r ∈ dfSeries ∧ r.ticker = rSer2021.ticker) :=
  resolver_first_match_full_series dfSeries SearchMode.byName "Gamma" rSer2021 (by decide)

/-! ### C4 — missing-file vs parse-error outcomes (corrected: both return
the same `None` outcome, indistinguishable to the caller) -/

/-- C4 counterexample: the loader returns the very same value for a missing
file and for an unparseable file, and the caller renders the identical
not-found guidance for both — the two failure cases are not distinguishable
by the caller, contrary to the claim. -/
theorem load_notfound_indistinct_cex :
    load_data FileState.missing = load_data FileState.corrupt ∧
    mainGuidance (load_data FileState.missing) = mainGuidance (load_data FileState.corrupt) :=
  ⟨rfl, rfl⟩

/-- C4 amended: the loader fails (returns the `None` pair) exactly when the
file is missing or unparseable, and on any failure the caller renders the
single not-found message; the parse cause is surfaced only by the loader's
own error side effect, not through the returned outcome. -/
theorem load_failure_outcome (fs : FileState) :
    (load_data fs = none ↔ fs = FileState.missing ∨ fs = FileState.corrupt) ∧
    mainGuidance none = some "无法找到数据文件" ∧
    (∀ res : List Record × List MarketAvg, mainGuidance (some res) = none) := by
  refine ⟨?_, rfl, fun _ => rfl⟩
  cases fs with
  | missing => simp [load_data]
  | corrupt => simp [load_data]
  | good rows => simp [load_data]

/-- C4 amended witness: instantiated at the unparseable-file state. -/
theorem load_failure_outcome_witness :
    (load_data FileState.corrupt = none ↔ FileState.corrupt = FileState.missing ∨
      FileState.corrupt = FileState.corrupt) ∧
    mainGuidance none = some "无法找到数据文件" ∧
    (∀ res : List Record × List MarketAvg, mainGuidance (some res) = none) :=
  load_failure_outcome FileState.corrupt

/-! ### C5 — retry after a failed load (corrected: `st.cache_data` caches
the failure, so a later call does not re-read the file) -/

/-- C5 counterexample: the first call runs against a missing file and
fails; the second call runs after the file has been placed and is
parseable, yet still returns the cached failure instead of re-reading —
while a fresh load of the fixed file would succeed. -/
theorem load_retry_cex :
    (load_data_cached (load_data_cached none FileState.missing).2 (FileState.good [rawOk])).1
      = none ∧
    (load_data (FileState.good [rawOk])).isSome = true :=
  ⟨rfl, rfl⟩

/-- C5 amended: a failed load is cached like any other result: once a call
has failed, every subsequent call returns the cached failure without
consulting the file system, whatever the file's current state. -/
theorem load_failure_cached (fs fs' : FileState) (h : load_data fs = none) :
    load_data_cached none fs = (none, some none) ∧
    (load_data_cached (load_data_cached none fs).2 fs').1 = none := by
  constructor
  · simp [load_data_cached, h]
  · simp [load_data_cached, h]

/-- C5 amended witness: first call on a missing file, second call on a
fixed, parseable file; the second call still reports failure. -/
theorem load_failure_cached_witness :
    load_data_cached none FileState.missing = (none, some none) ∧
    (load_data_cached (load_data_cached none FileState.missing).2 (FileState.good [rawOk])).1
      = none :=
  load_failure_cached FileState.missing (FileState.good [rawOk]) rfl

/-! ### C7 — year cleaning (corrected: unparseable years are dropped, but
positivity of surviving years is not enforced) -/

/-- C7 counterexample: a raw row whose year field parses to `-5` survives
loading with year `-5`, which is not positive — the claim's positivity
guarantee fails. -/
theorem clean_year_negative_cex :
    cleanRows [rawNeg] = [convRow rawNeg (-5)] ∧ ¬(0 < (convRow rawNeg (-5)).year) := by
  refine ⟨rfl, by decide⟩

/-- C7 amended: the cleaned dataset consists of exactly the rows whose year
parsed (rows with unparseable year are dropped, not errored), and every
surviving record's year is the parsed numeric value truncated toward zero —
an integer, though not necessarily positive. -/
theorem clean_year_rows (rows : List RawRow) :
    cleanRows rows = (rows.filter fun r => r.yearNum.isSome).map
      (fun r => convRow r (r.yearNum.getD 0)) ∧
    ∀ rec ∈ cleanRows rows, ∃ r ∈ rows, ∃ y : ℚ, r.yearNum = some y ∧ rec.year = truncQ y := by
  constructor
  · induction rows with
    | nil => rfl
    | cons a t ih =>
      cases ha : a.yearNum with
      | none => simpa [cleanRows, List.filterMap_cons, ha] using ih
      | some y => simpa [cleanRows, List.filterMap_cons, ha] using ih
  · intro rec hrec
    obtain ⟨r, hr, hconv⟩ := List.mem_filterMap.mp hrec
    cases hy : r.yearNum with
    | none => rw [hy] at hconv; cases hconv
    | some y =>
      rw [hy] at hconv
      injection hconv with hconv
      refine ⟨r, hr, y, hy, ?_⟩
      rw [← hconv]
      rfl

/-- C7 amended witness: a mixed batch — a parseable year 2020, a parseable
negative year, and an unparseable year — keeps exactly the two parseable
rows, and the surviving year-2020 record's year is the truncation of its
parsed value. -/
theorem clean_year_rows_witness :
    cleanRows [rawOk, rawNeg, rawBad] = ([rawOk, rawNeg, rawBad].filter
      fun r => r.yearNum.isSome).map (fun r => convRow r (r.yearNum.getD 0)) ∧
    ∃ r ∈ [rawOk, rawNeg, rawBad], ∃ y : ℚ, r.yearNum = some y ∧
      (convRow rawOk 2020).year = truncQ y :=
  ⟨(clean_year_rows [rawOk, rawNeg, rawBad]).1,
    (clean_year_rows [rawOk, rawNeg, rawBad]).2 (convRow rawOk 2020) (by decide)⟩

/-! ### C8 — market averages are per-year arithmetic means -/

/-- C8: for every year present in the dataset, the market-average table
entry found for that year holds the arithmetic mean of the index and of the
total keyword frequency over exactly the records of that year; in
particular, for a year with exactly one record the averages equal that
record's own values. -/
theorem market_avg_mean (df : List Record) (y : Int) (hy : y ∈ df.map (·.year)) :
    (market_avg df).find? (fun e => e.year == y) =
      some { year := y,
             avgIndex := ((df.filter fun r => r.year == y).map (·.index)).sum /
               ((df.filter fun r => r.year == y).length : ℚ),
             avgFreq := ((df.filter fun r => r.year == y).map (·.totalFreq)).sum /
               ((df.filter fun r => r.year == y).length : ℚ) } ∧
    (∀ r : Record, (df.filter fun r' => r'.year == y) = [r] →
      (market_avg df).find? (fun e => e.year == y) =
        some { year := y, avgIndex := r.index, avgFreq := r.totalFreq }) := by
  have hy' : y ∈ yearsOf df := mem_yearsOf.mpr hy
  have hmain : (market_avg df).find? (fun e => e.year == y) =
      some { year := y,
             avgIndex := ((df.filter fun r => r.year == y).map (·.index)).sum /
               ((df.filter fun r => r.year == y).length : ℚ),
             avgFreq := ((df.filter fun r => r.year == y).map (·.totalFreq)).sum /
               ((df.filter fun r => r.year == y).length : ℚ) } := by
    unfold market_avg
    exact find?_year_map (yearsOf df) y hy' _ (fun y' => rfl)
  refine ⟨hmain, ?_⟩
  intro r hr
  rw [hmain, hr]
  simp

/-- C8 witness: on a dataset whose only 2022 record is `rAvg`, the average
row for 2022 carries exactly `rAvg`'s index and frequency. -/
theorem market_avg_mean_witness :
    (market_avg dfAvg).find? (fun e => e.year == 2022) =
      some { year := 2022, avgIndex := rAvg.index, avgFreq := rAvg.totalFreq } :=
  (market_avg_mean dfAvg 2022 (by decide)).2 rAvg (by decide)

/-! ### C9 — percentile bucket is the floor of rank over market size -/

/-- C9: for every successful view whose rank is defined, the displayed
percentile bucket — `int(my_rank/total_comps*100)` in the source — equals
the floor of `rank / total_companies * 100`. -/
theorem percentile_floor (df : List Record) (mode : SearchMode) (q : String)
    (lo hi : Int) (m : Metrics) (_h : mainView df mode q lo hi = ViewResult.ok m)
    (r : Nat) (hr : m.my_rank = some r) :
    rankPercent m = some (Int.floor ((r : ℚ) / (m.total_comps : ℚ) * 100)) := by
  unfold rankPercent
  rw [hr, Option.map_some']
  congr 1
  apply truncQ_eq_floor_of_nonneg
  positivity

/-- C9 witness: rank 2 among 2 companies is reported as the floor of
`2/2*100`, i.e. top 100%. -/
theorem percentile_floor_witness :
    rankPercent mPct = some (Int.floor ((2 : ℚ) / ((mPct.total_comps : ℚ)) * 100)) :=
  percentile_floor dfPct SearchMode.byTicker "T8" 2000 2030 mPct (by decide) 2 rfl

/-! ### C10 — the rank lookup never falls back to "N/A" on a successful
view -/

/-- C10: on every successful view, the resolved ticker has a record in the
full dataset at the latest filtered year (the latest record is its own), so
the market-rank lookup is non-empty, the rank is a number rather than the
defensive `"N/A"` fallback, and both integer conversions for display are
defined. -/
theorem rank_always_defined (df : List Record) (mode : SearchMode) (q : String)
    (lo hi : Int) (m : Metrics) (h : mainView df mode q lo hi = ViewResult.ok m) :
    (∃ r ∈ df, r.ticker = m.stock_code ∧ r.year = m.latest_yr) ∧
    m.my_rank.isSome = true ∧ (rankCard m).isSome = true ∧
    (rankPercent m).isSome = true := by
  obtain ⟨m0, latest, hm0, hlast, hm⟩ := mainView_ok_elim h
  subst hm
  have hlmem : latest ∈ filterYears (company_series df m0.ticker) lo hi :=
    List.mem_of_getLast?_eq_some hlast
  obtain ⟨hldf, hlticker⟩ : latest ∈ df ∧ latest.ticker = m0.ticker :=
    mem_company_series.mp (mem_filterYears.mp hlmem).1
  have hmine : latest ∈ (df.filter fun r => r.year == latest.year).filter
      fun r => r.ticker == m0.ticker :=
    List.mem_filter.mpr ⟨List.mem_filter.mpr ⟨hldf, by simp⟩, by simp [hlticker]⟩
  have hsome : (((df.filter fun r => r.year == latest.year).filter
      fun r => r.ticker == m0.ticker).head?).isSome :=
    List.head?_isSome.mpr (List.ne_nil_of_mem hmine)
  refine ⟨⟨latest, hldf, hlticker, rfl⟩, ?_, ?_, ?_⟩
  · simp only [Option.isSome_map']
    exact hsome
  · simp only [rankCard, Option.isSome_map']
    exact hsome
  · simp only [rankPercent, Option.isSome_map']
    exact hsome

/-- C10 witness: on `dfSafe` the resolved company's rank and both display
conversions are defined. -/
theorem rank_always_defined_witness :
    (∃ r ∈ dfSafe, r.ticker = mSafe.stock_code ∧ r.year = mSafe.latest_yr) ∧
    mSafe.my_rank.isSome = true ∧ (rankCard mSafe).isSome = true ∧
    (rankPercent mSafe).isSome = true :=
  rank_always_defined dfSafe SearchMode.byTicker "T5" 2000 2030 mSafe (by decide)

end DigitalEconomy
